import Mathlib

/-!
Verification of the review-and-persistence engine of the WWTP validation
dashboard (`streamlit_app.py`): the haversine geo utility, the
filter/pagination pipeline, the neighbor scan, the row-edit and numeric
re-coercion logic, the validation-status lifecycle, and the local-then-remote
persistence layer.
-/

/-- `math.radians`: degrees to radians. -/
noncomputable def radians (x : ℝ) : ℝ := x * Real.pi / 180

/-- `haversine_distance(lat1, lon1, lat2, lon2)` from `streamlit_app.py`:
great-circle distance in km with Earth radius 6371. -/
noncomputable def haversine_distance (lat1 lon1 lat2 lon2 : ℝ) : ℝ :=
  let R : ℝ := 6371
  let d_lat := radians (lat2 - lat1)
  let d_lon := radians (lon2 - lon1)
  let a := Real.sin (d_lat / 2) ^ 2 +
    Real.cos (radians lat1) * Real.cos (radians lat2) * Real.sin (d_lon / 2) ^ 2
  let c := 2 * Real.arcsin (Real.sqrt a)
  R * c

/-- Modelled from the spec: the prior defective variant of the haversine logic
that "mistakenly reused the latitude delta for longitude"; it exists only to be
compared against `haversine_distance`, which must not reproduce the defect. -/
noncomputable def haversine_latbug (lat1 lon1 lat2 lon2 : ℝ) : ℝ :=
  let R : ℝ := 6371
  let d_lat := radians (lat2 - lat1)
  let a := Real.sin (d_lat / 2) ^ 2 +
    Real.cos (radians lat1) * Real.cos (radians lat2) * Real.sin (d_lat / 2) ^ 2
  let c := 2 * Real.arcsin (Real.sqrt a)
  R * c

lemma haversine_formula (lat1 lon1 lat2 lon2 : ℝ) :
    haversine_distance lat1 lon1 lat2 lon2 =
      6371 * (2 * Real.arcsin (Real.sqrt (Real.sin (radians (lat2 - lat1) / 2) ^ 2 +
        Real.cos (radians lat1) * Real.cos (radians lat2) *
          Real.sin (radians (lon2 - lon1) / 2) ^ 2))) := rfl

lemma sin_sq_neg_div_two (x : ℝ) :
    Real.sin (radians (-x) / 2) ^ 2 = Real.sin (radians x / 2) ^ 2 := by
  have h : radians (-x) / 2 = -(radians x / 2) := by unfold radians; ring
  rw [h, Real.sin_neg]
  ring

lemma haversine_nonneg (lat1 lon1 lat2 lon2 : ℝ) :
    0 ≤ haversine_distance lat1 lon1 lat2 lon2 := by
  rw [haversine_formula]
  have h : 0 ≤ Real.arcsin (Real.sqrt (Real.sin (radians (lat2 - lat1) / 2) ^ 2 +
      Real.cos (radians lat1) * Real.cos (radians lat2) *
        Real.sin (radians (lon2 - lon1) / 2) ^ 2)) :=
    Real.arcsin_nonneg.2 (Real.sqrt_nonneg _)
  nlinarith

lemma haversine_self (lat lon : ℝ) : haversine_distance lat lon lat lon = 0 := by
  rw [haversine_formula]
  simp [radians]

lemma haversine_symm (lat1 lon1 lat2 lon2 : ℝ) :
    haversine_distance lat1 lon1 lat2 lon2 = haversine_distance lat2 lon2 lat1 lon1 := by
  rw [haversine_formula, haversine_formula]
  rw [show lat1 - lat2 = -(lat2 - lat1) by ring, show lon1 - lon2 = -(lon2 - lon1) by ring]
  rw [sin_sq_neg_div_two, sin_sq_neg_div_two]
  ring_nf

lemma haversine_antipodal_lon : haversine_distance 0 0 0 180 = 6371 * Real.pi := by
  rw [haversine_formula]
  have h1 : radians (0 - 0) = 0 := by unfold radians; ring
  have h2 : radians (180 - 0) / 2 = Real.pi / 2 := by unfold radians; ring
  have h3 : radians 0 = 0 := by unfold radians; ring
  rw [h1, h2, h3]
  norm_num [Real.sin_pi_div_two, Real.arcsin_one]
  ring

lemma haversine_latbug_zero : haversine_latbug 0 0 0 180 = 0 := by
  unfold haversine_latbug
  simp [radians]

/-- Claim C5: `haversine_distance` is non-negative, zero on identical points,
symmetric in its two coordinate pairs, and its longitude term uses the
longitude delta `lon2 - lon1` (the defective variant that reuses the latitude
delta computes a different value: it reports distance 0 between two antipodal
points on the equator, while `haversine_distance` does not). -/
theorem haversine_distance_spec :
    (∀ lat1 lon1 lat2 lon2 : ℝ, 0 ≤ haversine_distance lat1 lon1 lat2 lon2) ∧
    (∀ lat lon : ℝ, haversine_distance lat lon lat lon = 0) ∧
    (∀ lat1 lon1 lat2 lon2 : ℝ,
      haversine_distance lat1 lon1 lat2 lon2 = haversine_distance lat2 lon2 lat1 lon1) ∧
    (∀ lat1 lon1 lat2 lon2 : ℝ,
      haversine_distance lat1 lon1 lat2 lon2 =
        6371 * (2 * Real.arcsin (Real.sqrt (Real.sin (radians (lat2 - lat1) / 2) ^ 2 +
          Real.cos (radians lat1) * Real.cos (radians lat2) *
            Real.sin (radians (lon2 - lon1) / 2) ^ 2)))) ∧
    haversine_latbug 0 0 0 180 = 0 ∧ haversine_distance 0 0 0 180 ≠ 0 := by
  refine ⟨haversine_nonneg, haversine_self, haversine_symm, haversine_formula,
    haversine_latbug_zero, ?_⟩
  rw [haversine_antipodal_lon]
  positivity

/-- One row of the loaded DataFrame, restricted to the fields the review
pipeline reads: the row index, the two coordinate columns (pandas `NaN`
modelled as `none`), and the three categorical filter columns (`NaN` as
`none`). -/
structure Row where
  idx : Nat
  latitude : Option ℝ
  longitude : Option ℝ
  country : Option String
  is_wwtp : Option String
  source : Option String

/-- pandas `Series.isin`: a cell passes iff it holds a value that is a member
of the allowed list; a `NaN` cell is never a member of a list of strings. -/
def cell_isin (c : Option String) (allowed : List String) : Bool :=
  match c with
  | none => false
  | some v => allowed.contains v

/-- `apply_filters(df, selected_countries, selected_orbis, selected_sources)`:
keeps the rows whose `country`, `is_wwtp` and `source` cells are each in the
corresponding selected list. -/
def apply_filters (df : List Row) (selected_countries selected_orbis
    selected_sources : List String) : List Row :=
  df.filter (fun r => cell_isin r.country selected_countries &&
    cell_isin r.is_wwtp selected_orbis &&
    cell_isin r.source selected_sources)

/-- The pagination step of `main`: `filtered_data.iloc[start_idx:end_idx]`
guarded by `if start_idx >= end_idx`, which yields an empty DataFrame. -/
def select_rows (l : List Row) (start_idx end_idx : Nat) : List Row :=
  if start_idx ≥ end_idx then [] else (l.drop start_idx).take (end_idx - start_idx)

/-- The full selection pipeline of `main`: filter, then paginate. -/
def review_selection (df : List Row) (selected_countries selected_orbis
    selected_sources : List String) (start_idx end_idx : Nat) : List Row :=
  select_rows (apply_filters df selected_countries selected_orbis selected_sources)
    start_idx end_idx

/-- The neighbor scan of `display_row_validation`: drop rows with a `NaN`
coordinate (`df_all = st.session_state.df.dropna(subset=["latitude",
"longitude"])`), then keep each row whose distance to the focal point is at
most 5 km and whose index differs from the focal index. -/
noncomputable def neighbors (df : List Row) (idx : Nat) (lat lon : ℝ) : List Row :=
  (df.filter (fun r2 => r2.latitude.isSome && r2.longitude.isSome)).filter
    (fun r2 =>
      match r2.latitude, r2.longitude with
      | some lat2, some lon2 =>
        decide (haversine_distance lat lon lat2 lon2 ≤ 5) && decide (r2.idx ≠ idx)
      | _, _ => false)

/-- The spec-side reading of a categorical predicate: the cell holds a value
that is a member of the allowed set. -/
def cell_mem (c : Option String) (allowed : List String) : Prop :=
  ∃ v, c = some v ∧ v ∈ allowed

lemma cell_isin_iff (c : Option String) (allowed : List String) :
    cell_isin c allowed = true ↔ cell_mem c allowed := by
  cases c <;> simp [cell_isin, cell_mem]

/-- Claim C4: a record is kept by `apply_filters` iff it is in the table and,
for each of the three supplied field predicates, its value for that field is a
member of the allowed set; the result is a sublist of the table, so filtering
never reorders. -/
theorem apply_filters_spec (df : List Row) (sc so ss : List String) :
    (apply_filters df sc so ss).Sublist df ∧
    ∀ r, r ∈ apply_filters df sc so ss ↔
      r ∈ df ∧ cell_mem r.country sc ∧ cell_mem r.is_wwtp so ∧ cell_mem r.source ss := by
  refine ⟨List.filter_sublist df, ?_⟩
  intro r
  simp [apply_filters, List.mem_filter, ← cell_isin_iff, and_assoc]

/-- Claim C9: a record with a missing (`NaN`) value in any of the three
filtered category fields is excluded by `apply_filters` whatever the selected
allowed-value sets are. -/
theorem apply_filters_excludes_missing (df : List Row) (sc so ss : List String)
    (r : Row) (hr : r ∈ df)
    (hna : r.country = none ∨ r.is_wwtp = none ∨ r.source = none) :
    r ∉ apply_filters df sc so ss := by
  intro hmem
  rw [apply_filters, List.mem_filter] at hmem
  rcases hna with h | h | h <;> simp [cell_isin, h] at hmem

/-- A sample row with no location and a missing `country` cell. -/
def rowNA : Row := ⟨0, none, none, none, some "yes", some "orbis"⟩

theorem apply_filters_excludes_missing_witness :
    rowNA ∉ apply_filters [rowNA] ["Egypt"] ["yes"] ["orbis"] :=
  apply_filters_excludes_missing [rowNA] ["Egypt"] ["yes"] ["orbis"] rowNA
    (List.mem_singleton.mpr rfl) (Or.inl rfl)

/-- Claim C3: whenever `start_idx >= end_idx`, the pagination step returns the
empty sequence (and, being a total function, does not raise). -/
theorem select_rows_empty_of_ge (l : List Row) (start_idx end_idx : Nat)
    (h : start_idx ≥ end_idx) : select_rows l start_idx end_idx = [] := by
  simp [select_rows, h]

theorem select_rows_empty_of_ge_witness : select_rows [rowNA] 5 3 = [] :=
  select_rows_empty_of_ge [rowNA] 5 3 (by decide)

lemma mem_neighbors (df : List Row) (idx : Nat) (lat lon : ℝ) (r : Row)
    (la lo : ℝ) (hdf : r ∈ df) (hla : r.latitude = some la)
    (hlo : r.longitude = some lo) (hd : haversine_distance lat lon la lo ≤ 5)
    (hi : r.idx ≠ idx) : r ∈ neighbors df idx lat lon := by
  rw [neighbors, List.mem_filter, List.mem_filter]
  refine ⟨⟨hdf, ?_⟩, ?_⟩
  · simp [hla, hlo]
  · simp only [hla, hlo, Bool.and_eq_true, decide_eq_true_eq]
    exact ⟨hd, hi⟩

lemma neighbors_sound (df : List Row) (idx : Nat) (lat lon : ℝ) (r : Row)
    (h : r ∈ neighbors df idx lat lon) :
    r ∈ df ∧ r.idx ≠ idx ∧ ∃ la lo, r.latitude = some la ∧ r.longitude = some lo ∧
      haversine_distance lat lon la lo ≤ 5 := by
  rw [neighbors, List.mem_filter, List.mem_filter] at h
  obtain ⟨⟨hdf, hsome⟩, hcond⟩ := h
  rw [Bool.and_eq_true, Option.isSome_iff_exists, Option.isSome_iff_exists] at hsome
  obtain ⟨⟨la, hla⟩, lo, hlo⟩ := hsome
  simp only [hla, hlo, Bool.and_eq_true, decide_eq_true_eq] at hcond
  exact ⟨hdf, hcond.2, la, lo, hla, hlo, hcond.1⟩

/-- Claim C6: the neighbor scan returns a sublist of the table (table order);
every returned row differs from the focal index, has both coordinates, and
lies within 5 km of the focal point; conversely every row of the table with
coordinates, a different index, and distance at most 5 km is returned. -/
theorem neighbors_spec (df : List Row) (idx : Nat) (lat lon : ℝ) :
    (neighbors df idx lat lon).Sublist df ∧
    (∀ r, r ∈ neighbors df idx lat lon →
      r.idx ≠ idx ∧ r.latitude.isSome = true ∧ r.longitude.isSome = true ∧
      ∀ la lo, r.latitude = some la → r.longitude = some lo →
        haversine_distance lat lon la lo ≤ 5) ∧
    (∀ r la lo, r ∈ df → r.latitude = some la → r.longitude = some lo →
      haversine_distance lat lon la lo ≤ 5 → r.idx ≠ idx →
      r ∈ neighbors df idx lat lon) := by
  refine ⟨(List.filter_sublist _).trans (List.filter_sublist df), ?_, ?_⟩
  · intro r h
    obtain ⟨_, hi, la, lo, hla, hlo, hd⟩ := neighbors_sound df idx lat lon r h
    refine ⟨hi, by simp [hla], by simp [hlo], ?_⟩
    intro la2 lo2 hla2 hlo2
    rw [hla2] at hla
    rw [hlo2] at hlo
    cases Option.some.inj hla
    cases Option.some.inj hlo
    exact hd
  · intro r la lo hdf hla hlo hd hi
    exact mem_neighbors df idx lat lon r la lo hdf hla hlo hd hi

/-- A sample candidate row located exactly at the origin, with index 1. -/
def rowCand : Row := ⟨1, some 0, some 0, none, none, none⟩

theorem neighbors_spec_witness : rowCand ∈ neighbors [rowCand] 0 0 0 :=
  (neighbors_spec [rowCand] 0 0 0).2.2 rowCand 0 0 (List.mem_singleton.mpr rfl) rfl rfl
    (by rw [haversine_self]; norm_num) (by decide)

/-- Claim C10: the neighbor scan runs over the full loaded table, not the
filtered/paginated review selection: a row excluded from the current review
selection is still returned as a neighbor whenever it has coordinates, a
different index, and lies within the 5 km radius. -/
theorem neighbors_scan_full_table (df : List Row) (sc so ss : List String)
    (start_idx end_idx : Nat) (idx : Nat) (lat lon : ℝ) (r : Row) (la lo : ℝ)
    (hdf : r ∈ df) (hla : r.latitude = some la) (hlo : r.longitude = some lo)
    (hi : r.idx ≠ idx) (hd : haversine_distance lat lon la lo ≤ 5)
    (hexcl : r ∉ review_selection df sc so ss start_idx end_idx) :
    r ∈ neighbors df idx lat lon :=
  mem_neighbors df idx lat lon r la lo hdf hla hlo hd hi

theorem neighbors_scan_full_table_witness : rowCand ∈ neighbors [rowCand] 5 0 0 :=
  neighbors_scan_full_table [rowCand] [] [] [] 0 10 5 0 0 rowCand 0 0
    (List.mem_singleton.mpr rfl) rfl rfl (by decide)
    (by rw [haversine_self]; norm_num)
    (by simp [review_selection, apply_filters, cell_isin, select_rows, rowCand])

/-- The `Validation_Status` column as seen by `download_and_load_data`: either
the source CSV lacks the column (and only the row count matters), or it is
present with one value per row (`NaN` as `none`). -/
inductive StatusSource where
  | absent (n : Nat)
  | present (vals : List (Option String))

/-- Lines 99-100 of `download_and_load_data`, restricted to the status column:
if `"Validation_Status"` is not among the columns, every row gets the empty
string, which is the code's encoding of the `Unreviewed` enum value. -/
def download_and_load_status : StatusSource → List (Option String)
  | StatusSource.absent n => List.replicate n (some "")
  | StatusSource.present vals => vals

/-- A reviewer decision on one row: the Accepted / Rejected buttons of
`display_row_validation`. -/
inductive ReviewOp where
  | accept (i : Nat)
  | reject (i : Nat)

/-- Effect of one decision on the status column:
`st.session_state.df.loc[idx, "Validation_Status"] = "Accepted"` (resp.
`"Rejected"`). -/
def applyOp (l : List (Option String)) : ReviewOp → List (Option String)
  | ReviewOp.accept i => l.set i (some "Accepted")
  | ReviewOp.reject i => l.set i (some "Rejected")

def applyOps (l : List (Option String)) (ops : List ReviewOp) : List (Option String) :=
  ops.foldl applyOp l

/-- The three enum values of `validation_status`, in the code's string
encoding: `Unreviewed` is the empty string, the decisions are `"Accepted"` and
`"Rejected"`. -/
def isEnumStatus (s : Option String) : Prop :=
  s = some "" ∨ s = some "Accepted" ∨ s = some "Rejected"

lemma applyOp_preserves (l : List (Option String)) (op : ReviewOp)
    (h : ∀ s ∈ l, isEnumStatus s) : ∀ s ∈ applyOp l op, isEnumStatus s := by
  intro s hs
  cases op with
  | accept i =>
    rcases List.mem_or_eq_of_mem_set hs with h1 | h1
    · exact h s h1
    · exact Or.inr (Or.inl h1)
  | reject i =>
    rcases List.mem_or_eq_of_mem_set hs with h1 | h1
    · exact h s h1
    · exact Or.inr (Or.inr h1)

lemma applyOps_preserves (ops : List ReviewOp) :
    ∀ l, (∀ s ∈ l, isEnumStatus s) → ∀ s ∈ applyOps l ops, isEnumStatus s := by
  induction ops with
  | nil => intro l h s hs; exact h s hs
  | cons op rest ih =>
    intro l h s hs
    exact ih (applyOp l op) (applyOp_preserves l op h) s hs

/-- Claim C1: when the status column is absent from the source, first load
gives every row the `Unreviewed` encoding (the empty string), and any sequence
of accept/reject decisions keeps every row's status inside the three-value
enum {Unreviewed, Accepted, Rejected}. -/
theorem validation_status_invariant :
    (∀ n s, s ∈ download_and_load_status (StatusSource.absent n) → s = some "") ∧
    (∀ l ops s, (∀ t ∈ l, isEnumStatus t) → s ∈ applyOps l ops → isEnumStatus s) ∧
    (∀ n ops s, s ∈ applyOps (download_and_load_status (StatusSource.absent n)) ops →
      isEnumStatus s) := by
  refine ⟨?_, ?_, ?_⟩
  · intro n s hs
    exact List.eq_of_mem_replicate hs
  · intro l ops s h hs
    exact applyOps_preserves ops l h s hs
  · intro n ops s hs
    refine applyOps_preserves ops _ ?_ s hs
    intro t ht
    exact Or.inl (List.eq_of_mem_replicate ht)

theorem validation_status_invariant_witness : isEnumStatus (some "Accepted") :=
  validation_status_invariant.2.2 1 [ReviewOp.accept 0] (some "Accepted") (by decide)

/-- Outcome of the two HTTP calls made by `commit_file_to_github`: the status
of the GET on the contents URL, the `sha` field of its JSON body when it is
200, and the status of the PUT. -/
structure RemoteEnv where
  getStatus : Nat
  getSha : String
  putStatus : Nat

/-- Observable persistence events of `save_dataframe` /
`commit_file_to_github`: writing the local CSV, rolling it back (which the
code never does), the GET of the remote copy, and the PUT of the new content
with its optional expected-version `sha`. -/
inductive SyncEvent where
  | localWrite (content : List Row)
  | localRollback
  | remoteGet
  | remotePut (sha : Option String)

/-- `commit_file_to_github` as its sequence of remote operations: GET the
file; on 200 PUT with the fetched `sha`, on 404 PUT with no `sha` (creating
the file), on any other status give up without a PUT. -/
def commit_file_to_github (env : RemoteEnv) : List SyncEvent :=
  SyncEvent.remoteGet ::
    (if env.getStatus = 200 then [SyncEvent.remotePut (some env.getSha)]
     else if env.getStatus = 404 then [SyncEvent.remotePut none]
     else [])

/-- `save_dataframe(df)`: write the full table to the local CSV, then run
`commit_file_to_github` on its bytes. -/
def save_dataframe (df : List Row) (env : RemoteEnv) : List SyncEvent :=
  SyncEvent.localWrite df :: commit_file_to_github env

/-- Effect of one persistence event on the local CSV file. -/
def applyEvent (s : Option (List Row)) : SyncEvent → Option (List Row)
  | SyncEvent.localWrite c => some c
  | SyncEvent.localRollback => none
  | SyncEvent.remoteGet => s
  | SyncEvent.remotePut _ => s

def localFileAfter (init : Option (List Row)) (evs : List SyncEvent) : Option (List Row) :=
  evs.foldl applyEvent init

def isRemote : SyncEvent → Bool
  | SyncEvent.remoteGet => true
  | SyncEvent.remotePut _ => true
  | _ => false

lemma localFileAfter_remote (evs : List SyncEvent) :
    ∀ s, (∀ e ∈ evs, isRemote e = true) → localFileAfter s evs = s := by
  induction evs with
  | nil => intro s _; rfl
  | cons e rest ih =>
    intro s h
    have he : isRemote e = true := h e (List.mem_cons_self e rest)
    have hrest : ∀ e2 ∈ rest, isRemote e2 = true :=
      fun e2 he2 => h e2 (List.mem_cons_of_mem e he2)
    cases e with
    | localWrite c => simp [isRemote] at he
    | localRollback => simp [isRemote] at he
    | remoteGet => exact ih s hrest
    | remotePut sha => exact ih s hrest

lemma commit_events_remote (env : RemoteEnv) :
    ∀ e ∈ commit_file_to_github env, isRemote e = true := by
  intro e he
  rw [commit_file_to_github] at he
  rcases List.mem_cons.1 he with h | h
  · rw [h]; rfl
  · split at h
    · rw [List.mem_singleton.1 h]; rfl
    · split at h
      · rw [List.mem_singleton.1 h]; rfl
      · exact absurd h (List.not_mem_nil e)

/-- Claim C2: `save_dataframe` writes the full table to the local file as its
first action, everything after it is a remote operation, the local file is
never rolled back, and whatever the remote GET/PUT outcomes are (failure or
version conflict included) the local file afterwards holds exactly the saved
table. -/
theorem save_dataframe_local_first (df : List Row) (env : RemoteEnv)
    (init : Option (List Row)) :
    (save_dataframe df env).head? = some (SyncEvent.localWrite df) ∧
    (∀ e ∈ (save_dataframe df env).tail, isRemote e = true) ∧
    SyncEvent.localRollback ∉ save_dataframe df env ∧
    localFileAfter init (save_dataframe df env) = some df := by
  refine ⟨rfl, ?_, ?_, ?_⟩
  · intro e he
    exact commit_events_remote env e he
  · intro hmem
    rcases List.mem_cons.1 hmem with h | h
    · exact SyncEvent.noConfusion h
    · have := commit_events_remote env _ h
      simp [isRemote] at this
  · show localFileAfter (applyEvent init (SyncEvent.localWrite df))
      (commit_file_to_github env) = some df
    exact localFileAfter_remote (commit_file_to_github env) (some df)
      (commit_events_remote env)

/-- A remote environment whose GET fails with a server error. -/
def envDown : RemoteEnv := ⟨500, "", 0⟩

theorem save_dataframe_local_first_witness :
    localFileAfter none (save_dataframe [] envDown) = some [] :=
  (save_dataframe_local_first [] envDown none).2.2.2

/-- Claim C8: a 404 on the remote read makes `commit_file_to_github` send the
write with no expected-version `sha` (creating the file); a 200 read makes it
send the write carrying the fetched `sha` as the expected version token. -/
theorem commit_handles_absent_remote (env : RemoteEnv) :
    (env.getStatus = 404 →
      commit_file_to_github env = [SyncEvent.remoteGet, SyncEvent.remotePut none]) ∧
    (env.getStatus = 200 →
      commit_file_to_github env =
        [SyncEvent.remoteGet, SyncEvent.remotePut (some env.getSha)]) := by
  constructor <;> intro h <;> simp [commit_file_to_github, h]

/-- A remote environment where the file is absent. -/
def envAbsent : RemoteEnv := ⟨404, "", 201⟩

/-- A remote environment where the file exists with sha token `"abc123"`. -/
def envPresent : RemoteEnv := ⟨200, "abc123", 200⟩

theorem commit_handles_absent_remote_witness :
    commit_file_to_github envAbsent = [SyncEvent.remoteGet, SyncEvent.remotePut none] ∧
    commit_file_to_github envPresent =
      [SyncEvent.remoteGet, SyncEvent.remotePut (some "abc123")] :=
  ⟨(commit_handles_absent_remote envAbsent).1 rfl,
   (commit_handles_absent_remote envPresent).2 rfl⟩

/-- A DataFrame cell as the edit logic sees it: missing (`NaN`), a string, or
a number (pandas floats modelled as rationals). -/
inductive Cell where
  | na
  | str (s : String)
  | num (q : ℚ)
deriving DecidableEq

/-- The fixed numeric column list of lines 284-290 (also used on load). -/
def numeric_cols : List String :=
  ["circular_tank_count", "rectangular_tank_count", "desgin_capacity_m3_yr",
   "latitude", "longitude"]

/-- Modelled from the spec: pandas `to_numeric(errors="coerce")` on one cell
(the library call is external to the repository), abstract over the numeric
parser `parse`: numbers and missing cells pass through, a string cell becomes
the parsed number, or missing (`na`) when the parser rejects it. -/
def to_numeric_cell (parse : String → Option ℚ) : Cell → Cell
  | Cell.na => Cell.na
  | Cell.num q => Cell.num q
  | Cell.str s =>
    match parse s with
    | some q => Cell.num q
    | none => Cell.na

/-- `st.session_state.df.loc[idx, col_name] = val` restricted to one row,
modelled on rows as association lists from column name to cell: the named
column's cell is overwritten with the (string) form value. -/
def setField (r : List (String × Cell)) (col v : String) : List (String × Cell) :=
  r.map (fun p => if p.1 = col then (p.1, Cell.str v) else p)

/-- The `for col_name, val in updated_values.items()` loop of the save
handler. -/
def applyUpdates (r : List (String × Cell)) (updates : List (String × String)) :
    List (String × Cell) :=
  updates.foldl (fun acc u => setField acc u.1 u.2) r

/-- One row of the whole-table re-coercion `df[col] = pd.to_numeric(df[col],
errors="coerce")` over the fixed numeric columns. -/
def recoerceRow (parse : String → Option ℚ) (r : List (String × Cell)) :
    List (String × Cell) :=
  r.map (fun p => if p.1 ∈ numeric_cols then (p.1, to_numeric_cell parse p.2) else p)

/-- The whole-table numeric re-coercion of lines 291-294: it runs over every
row of the table, not just the edited one. -/
def recoerce_numeric (parse : String → Option ℚ) (df : List (List (String × Cell))) :
    List (List (String × Cell)) :=
  df.map (recoerceRow parse)

/-- The body of `if st.form_submit_button("Save Row Changes")` in
`display_row_validation`: write every submitted field of row `idx` in place,
then re-coerce the numeric columns over the whole table. -/
def save_row_changes (parse : String → Option ℚ) (df : List (List (String × Cell)))
    (idx : Nat) (updates : List (String × String)) : List (List (String × Cell)) :=
  recoerce_numeric parse (df.set idx (applyUpdates (df.getD idx []) updates))

/-- Reading one cell back from the table. -/
def getCell (df : List (List (String × Cell))) (idx : Nat) (col : String) :
    Option Cell :=
  (df.getD idx []).lookup col

lemma setField_cons (k : String) (cell : Cell) (r : List (String × Cell))
    (col v : String) :
    setField ((k, cell) :: r) col v =
      (if k = col then (k, Cell.str v) else (k, cell)) :: setField r col v := rfl

lemma lookup_setField_self (r : List (String × Cell)) (col v : String) :
    (setField r col v).lookup col = (r.lookup col).map (fun _ => Cell.str v) := by
  induction r with
  | nil => rfl
  | cons p r ih =>
    rcases p with ⟨c, cell⟩
    rw [setField_cons]
    by_cases h : c = col
    · rw [if_pos h, List.lookup_cons, List.lookup_cons, beq_iff_eq.2 h.symm]
      rfl
    · rw [if_neg h, List.lookup_cons, List.lookup_cons,
        beq_false_of_ne (fun hh => h hh.symm)]
      exact ih

lemma lookup_setField_ne (r : List (String × Cell)) (col c v : String)
    (h : col ≠ c) : (setField r c v).lookup col = r.lookup col := by
  induction r with
  | nil => rfl
  | cons p r ih =>
    rcases p with ⟨k, cell⟩
    rw [setField_cons]
    by_cases hp : k = c
    · rw [if_pos hp, List.lookup_cons, List.lookup_cons,
        beq_false_of_ne (fun hh => h (hh.trans hp))]
      exact ih
    · rw [if_neg hp, List.lookup_cons, List.lookup_cons]
      by_cases hk : col = k
      · rw [beq_iff_eq.2 hk]
      · rw [beq_false_of_ne hk]
        exact ih

lemma lookup_applyUpdates_notmem (updates : List (String × String)) :
    ∀ r col, col ∉ updates.map Prod.fst →
      (applyUpdates r updates).lookup col = r.lookup col := by
  induction updates with
  | nil => intro r col _; rfl
  | cons u rest ih =>
    intro r col h
    rw [List.map_cons, List.mem_cons, not_or] at h
    show (applyUpdates (setField r u.1 u.2) rest).lookup col = r.lookup col
    rw [ih (setField r u.1 u.2) col h.2]
    exact lookup_setField_ne r col u.1 u.2 h.1

lemma lookup_applyUpdates (updates : List (String × String)) :
    ∀ r col v, (updates.map Prod.fst).Nodup → updates.lookup col = some v →
      (applyUpdates r updates).lookup col = (r.lookup col).map (fun _ => Cell.str v) := by
  induction updates with
  | nil => intro r col v _ hv; exact absurd hv (by simp [List.lookup])
  | cons u rest ih =>
    intro r col v hnd hv
    rw [List.map_cons, List.nodup_cons] at hnd
    by_cases h : col = u.1
    · have hbeq : (col == u.1) = true := by simp [h]
      rw [List.lookup, hbeq] at hv
      have hveq : u.2 = v := Option.some.inj hv
      show (applyUpdates (setField r u.1 u.2) rest).lookup col =
        (r.lookup col).map (fun _ => Cell.str v)
      rw [lookup_applyUpdates_notmem rest (setField r u.1 u.2) col (h ▸ hnd.1)]
      rw [h, lookup_setField_self r u.1 u.2, hveq]
    · have hbeq : (col == u.1) = false := by simp [h]
      rw [List.lookup, hbeq] at hv
      show (applyUpdates (setField r u.1 u.2) rest).lookup col =
        (r.lookup col).map (fun _ => Cell.str v)
      rw [ih (setField r u.1 u.2) col v hnd.2 hv]
      rw [lookup_setField_ne r col u.1 u.2 h]

lemma lookup_recoerceRow (parse : String → Option ℚ) (r : List (String × Cell))
    (col : String) :
    (recoerceRow parse r).lookup col = (r.lookup col).map
      (fun cell => if col ∈ numeric_cols then to_numeric_cell parse cell else cell) := by
  induction r with
  | nil => rfl
  | cons p r ih =>
    rcases p with ⟨k, cell⟩
    have hcons : recoerceRow parse ((k, cell) :: r) =
        (if k ∈ numeric_cols then (k, to_numeric_cell parse cell) else (k, cell)) ::
          recoerceRow parse r := rfl
    rw [hcons]
    by_cases hc : col = k
    · subst hc
      by_cases hn : col ∈ numeric_cols
      · rw [if_pos hn]
        simp [List.lookup_cons, hn]
      · rw [if_neg hn]
        simp [List.lookup_cons, hn]
    · by_cases hn : k ∈ numeric_cols
      · rw [if_pos hn]
        simp only [List.lookup_cons, beq_false_of_ne hc]
        exact ih
      · rw [if_neg hn]
        simp only [List.lookup_cons, beq_false_of_ne hc]
        exact ih

lemma to_numeric_cell_ne_str (parse : String → Option ℚ) (c : Cell) (s : String) :
    to_numeric_cell parse c ≠ Cell.str s := by
  cases c with
  | na => simp [to_numeric_cell]
  | num q => simp [to_numeric_cell]
  | str s0 => cases h : parse s0 <;> simp [to_numeric_cell, h]

lemma getCell_save_row_changes (parse : String → Option ℚ)
    (df : List (List (String × Cell))) (idx : Nat) (updates : List (String × String))
    (col : String) (hidx : idx < df.length) :
    getCell (save_row_changes parse df idx updates) idx col =
      ((applyUpdates (df.getD idx []) updates).lookup col).map
        (fun cell => if col ∈ numeric_cols then to_numeric_cell parse cell else cell) := by
  rw [getCell, save_row_changes, recoerce_numeric]
  rw [List.getD_eq_getElem?_getD, List.getElem?_map]
  rw [List.getElem?_set_eq_of_lt _ (by simpa using hidx)]
  simp only [Option.map_some', Option.getD_some]
  exact lookup_recoerceRow parse _ col

/-- Claim C7: after saving row changes, reading an updated field of the edited
row returns the new value, passed through the numeric coercion when the
column is numeric; a numeric field whose new value the parser rejects stores
missing (`na`), not the raw string; and after the whole-table re-coercion no
numeric column of any row holds a raw string. -/
theorem save_row_changes_spec (parse : String → Option ℚ)
    (df : List (List (String × Cell))) (idx : Nat) (updates : List (String × String))
    (hnd : (updates.map Prod.fst).Nodup) (hidx : idx < df.length) :
    (∀ col v, updates.lookup col = some v →
      ((df.getD idx []).lookup col).isSome = true →
      getCell (save_row_changes parse df idx updates) idx col =
        some (if col ∈ numeric_cols then to_numeric_cell parse (Cell.str v)
          else Cell.str v)) ∧
    (∀ col v, updates.lookup col = some v → col ∈ numeric_cols → parse v = none →
      ((df.getD idx []).lookup col).isSome = true →
      getCell (save_row_changes parse df idx updates) idx col = some Cell.na) ∧
    (∀ ri, ri ∈ save_row_changes parse df idx updates → ∀ p, p ∈ ri →
      p.1 ∈ numeric_cols → ∀ s, p.2 ≠ Cell.str s) := by
  have key : ∀ col v, updates.lookup col = some v →
      ((df.getD idx []).lookup col).isSome = true →
      getCell (save_row_changes parse df idx updates) idx col =
        some (if col ∈ numeric_cols then to_numeric_cell parse (Cell.str v)
          else Cell.str v) := by
    intro col v huv hsome
    rw [getCell_save_row_changes parse df idx updates col hidx]
    rw [lookup_applyUpdates updates (df.getD idx []) col v hnd huv]
    obtain ⟨c0, hc0⟩ := Option.isSome_iff_exists.1 hsome
    rw [hc0]
    rfl
  refine ⟨key, ?_, ?_⟩
  · intro col v huv hnum hparse hsome
    rw [key col v huv hsome, if_pos hnum]
    have : to_numeric_cell parse (Cell.str v) = Cell.na := by
      simp [to_numeric_cell, hparse]
    rw [this]
  · intro ri hri p hp hnum s
    rw [save_row_changes, recoerce_numeric] at hri
    obtain ⟨r0, hr0, hreq⟩ := List.mem_map.1 hri
    rw [← hreq, recoerceRow] at hp
    obtain ⟨q, hq, hpeq⟩ := List.mem_map.1 hp
    by_cases h : q.1 ∈ numeric_cols
    · rw [← hpeq, if_pos h]
      exact to_numeric_cell_ne_str parse q.2 s
    · rw [← hpeq, if_neg h] at hnum
      exact absurd hnum h

/-- A simple numeric parser for concrete evaluation: accepts only `"7"`. -/
def parseSeven : String → Option ℚ := fun s => if s = "7" then some 7 else none

/-- A one-row table with a string `country` cell and a numeric `latitude`
cell. -/
def dfSample : List (List (String × Cell)) :=
  [[("country", Cell.str "Egypt"), ("latitude", Cell.num 30)]]

/-- An edit writing a new country and an unparseable latitude. -/
def updatesSample : List (String × String) := [("country", "Jordan"), ("latitude", "abc")]

theorem save_row_changes_spec_witness :
    getCell (save_row_changes parseSeven dfSample 0 updatesSample) 0 "latitude" =
      some Cell.na :=
  (save_row_changes_spec parseSeven dfSample 0 updatesSample (by decide)
    (by decide)).2.1 "latitude" "abc" (by decide) (by decide) (by decide) (by decide)
